import Mathlib

set_option maxRecDepth 8000

/-!
Verification of the keyboard scancode channel in `src/task/keyboard.rs`.

The shared state of the channel consists of two `crossbeam_queue::ArrayQueue`
values held in `conquer_once` cells: `SCANCODE_QUEUE : ArrayQueue<u8>` and
`WAKER_QUEUE : ArrayQueue<AtomicWaker>`.  We embed `ArrayQueue` as a bounded
FIFO (a capacity together with the list of items, front at the head): `push`
appends at the back and fails — returning the queue unchanged and `false` —
exactly when the queue is full, mirroring `ArrayQueue::push` returning
`Err(PushError)`; `pop` removes the front element, mirroring
`ArrayQueue::pop` returning `Err(PopError)` on an empty queue.

Scancode bytes are modelled as `Nat` (the code never computes with the byte,
it only moves it), and a registered `AtomicWaker` is modelled by the
identifier of the task whose context was registered into it; `wake()` is
modelled by recording that identifier in a `woken` output list, and `take()`
by discarding the popped handle.  The `println!` diagnostics on a failed push
are modelled, where a claim needs them, by a count of drop events.

The interrupt handler runs `add_scancode` atomically with respect to the
cooperative consumers (consumers never preempt each other, and the interrupt
is not reentrant), but it may fire between any two steps of a consumer's
`poll_next`.  `poll_next` is therefore embedded both as a single sequential
function and as its three atomic phases (fast-path check, waker registration,
race-closing re-check) with producer interference allowed between phases.
-/

/-- Model of `crossbeam_queue::ArrayQueue`: a bounded FIFO. -/
structure ArrayQueue (α : Type) where
  capacity : Nat
  items : List α
deriving DecidableEq

/-- `ArrayQueue::new(cap)`: an empty queue with the given capacity. -/
def ArrayQueue.new {α : Type} (cap : Nat) : ArrayQueue α :=
  { capacity := cap, items := [] }

/-- `ArrayQueue::push`: append at the back; on a full queue the item is
rejected (the `Bool` component is `false`) and the queue is unchanged. -/
def ArrayQueue.push {α : Type} (q : ArrayQueue α) (x : α) : ArrayQueue α × Bool :=
  if q.items.length < q.capacity then ({ q with items := q.items ++ [x] }, true)
  else (q, false)

/-- `ArrayQueue::pop`: remove the front element; `none` on an empty queue. -/
def ArrayQueue.pop {α : Type} (q : ArrayQueue α) : Option α × ArrayQueue α :=
  match q.items with
  | [] => (none, q)
  | x :: rest => (some x, { q with items := rest })

/-- The shared mutable state of the channel after initialization: the contents
of `SCANCODE_QUEUE` and of `WAKER_QUEUE` (wakers are task identifiers). -/
structure KState where
  scancode_queue : ArrayQueue Nat
  waker_queue : ArrayQueue Nat
deriving DecidableEq

/-- The `while let Ok(waker) = waker_queue.pop()` loop body of `add_scancode`
(lines 47–56): for each popped waker, try to push the scancode; on success
wake that waker, on failure emit a diagnostic (counted) and do not wake.
Returns the final scancode queue, the list of woken task ids in wake order,
and the number of full-queue diagnostics. -/
def addScancodeLoop (sc : Nat) (wakers : List Nat) (scq : ArrayQueue Nat) :
    ArrayQueue Nat × List Nat × Nat :=
  match wakers with
  | [] => (scq, [], 0)
  | w :: rest =>
      let p := scq.push sc
      if p.2 then
        let r := addScancodeLoop sc rest p.1
        (r.1, w :: r.2.1, r.2.2)
      else
        let r := addScancodeLoop sc rest p.1
        (r.1, r.2.1, r.2.2 + 1)

/-- Result of one `add_scancode` call: the new shared state, the task ids
whose wakers were invoked (in order), and the number of dropped copies. -/
structure ProduceResult where
  state : KState
  woken : List Nat
  drops : Nat
deriving DecidableEq

/-- `add_scancode` (lines 30–58), after the initialization guards: drain the
waker queue, pushing one copy of the scancode per popped waker and waking the
waker only when its push succeeded. -/
def add_scancode (sc : Nat) (s : KState) : ProduceResult :=
  let r := addScancodeLoop sc s.waker_queue.items s.scancode_queue
  { state := { scancode_queue := r.1, waker_queue := { s.waker_queue with items := [] } },
    woken := r.2.1,
    drops := r.2.2 }

/-- Result of `poll_next`: `Poll::Ready(Some(scancode))` or `Poll::Pending`. -/
inductive PollResult where
  | ready (sc : Nat)
  | pending
deriving DecidableEq

/-- Fast path of `poll_next` (lines 99–101): pop the scancode queue; on a hit
return the byte and the updated state, never touching the waker queue. -/
def pollFastCheck (s : KState) : Option (Nat × KState) :=
  match s.scancode_queue.pop with
  | (some sc, q) => some (sc, { s with scancode_queue := q })
  | (none, _) => none

/-- Registration step of `poll_next` (lines 108–112): create a waker for the
calling task `t` and push it into the waker queue; a full waker queue makes
the push fail (diagnostic printed, waker dropped). -/
def pollRegister (t : Nat) (s : KState) : KState × Bool :=
  let p := s.waker_queue.push t
  ({ s with waker_queue := p.1 }, p.2)

/-- Race-closing re-check of `poll_next` (lines 116–127): pop the scancode
queue again; on a hit, additionally pop (and discard via `take()`) one waker
from the waker queue and return `Ready`; otherwise return `Pending`. -/
def pollRecheck (s : KState) : KState × PollResult :=
  match s.scancode_queue.pop with
  | (some sc, q) =>
      ({ scancode_queue := q, waker_queue := (s.waker_queue.pop).2 }, PollResult.ready sc)
  | (none, _) => (s, PollResult.pending)

/-- `ScancodeStream::poll_next` (lines 85–128) run without interference:
fast path, then registration, then the re-check. -/
def poll_next (t : Nat) (s : KState) : KState × PollResult :=
  match pollFastCheck s with
  | some (sc, s1) => (s1, PollResult.ready sc)
  | none => pollRecheck (pollRegister t s).1

/-- A sequence of interrupt-handler invocations applied to the shared state. -/
def runProduces (scs : List Nat) (s : KState) : KState :=
  scs.foldl (fun st x => (add_scancode x st).state) s

/-- The shared state a polling task observes at its re-check, when the
interrupt handler delivered the bytes `mid1` between the fast-path check and
the registration, and the bytes `mid2` between the registration and the
re-check. -/
def beforeRecheck (t : Nat) (mid1 mid2 : List Nat) (s : KState) : KState :=
  runProduces mid2 (pollRegister t (runProduces mid1 s)).1

/-- `ScancodeStream::poll_next` with producer interference between its atomic
phases: `mid1` arrives between the fast-path check and the registration,
`mid2` between the registration and the re-check. -/
def poll_next_interleaved (t : Nat) (mid1 mid2 : List Nat) (s : KState) :
    KState × PollResult :=
  match pollFastCheck s with
  | some (sc, s1) => (s1, PollResult.ready sc)
  | none => pollRecheck (beforeRecheck t mid1 mid2 s)

/-- Number of copies of a byte the drain loop manages to push: the free
scancode slots, capped by the number of waiting wakers. -/
def freeSlots (s : KState) : Nat :=
  min (s.scancode_queue.capacity - s.scancode_queue.items.length) s.waker_queue.items.length

/-- Characterization of the drain loop: with `f` the number of free scancode
slots capped by the number of waiting wakers, the loop appends `f` copies of
the scancode, wakes exactly the first `f` wakers, and drops one copy per
remaining waker. -/
theorem addScancodeLoop_spec (sc : Nat) (wakers : List Nat) (scq : ArrayQueue Nat) :
    addScancodeLoop sc wakers scq =
      ({ scq with items :=
            scq.items ++ List.replicate (min (scq.capacity - scq.items.length) wakers.length) sc },
       wakers.take (min (scq.capacity - scq.items.length) wakers.length),
       wakers.length - min (scq.capacity - scq.items.length) wakers.length) := by
  induction wakers generalizing scq with
  | nil => simp [addScancodeLoop]
  | cons w rest ih =>
      by_cases h : scq.items.length < scq.capacity
      · have hmin : min (scq.capacity - scq.items.length) (rest.length + 1)
            = min (scq.capacity - (scq.items.length + 1)) rest.length + 1 := by omega
        simp only [addScancodeLoop, ArrayQueue.push, h, if_true, ih, List.length_cons, hmin]
        simp [List.replicate_succ, List.append_assoc, List.take_succ_cons]
      · have hmin : min (scq.capacity - scq.items.length) (rest.length + 1) = 0 := by omega
        have hmin2 : min (scq.capacity - scq.items.length) rest.length = 0 := by omega
        simp only [addScancodeLoop, ArrayQueue.push, h, if_false, ih, List.length_cons,
          hmin, hmin2]
        simp

/-- `add_scancode` in closed form: the waker queue is fully drained, the first
`freeSlots` wakers (those whose push succeeded) are woken, `freeSlots` copies
of the byte are appended, and one drop is counted per remaining waker. -/
theorem add_scancode_spec (sc : Nat) (s : KState) :
    add_scancode sc s =
      { state :=
          { scancode_queue :=
              { s.scancode_queue with
                  items := s.scancode_queue.items ++ List.replicate (freeSlots s) sc },
            waker_queue := { s.waker_queue with items := [] } },
        woken := s.waker_queue.items.take (freeSlots s),
        drops := s.waker_queue.items.length - freeSlots s } := by
  simp [add_scancode, addScancodeLoop_spec, freeSlots]

/-- Claim C1 (counterexample): with the Waker Registry empty and the Scancode
Queue empty — hence not full — `add_scancode 42` leaves the Scancode Queue
empty.  No copy of the byte reaches the Queue, so a consumer that begins
polling afterwards cannot retrieve it. -/
theorem add_scancode_empty_registry_drops_byte_cex :
    (KState.mk (ArrayQueue.mk 100 []) (ArrayQueue.mk 100 [])).scancode_queue.items.length
        < 100 ∧
    (add_scancode 42
        (KState.mk (ArrayQueue.mk 100 []) (ArrayQueue.mk 100 []))).state.scancode_queue.items
      = [] := by
  decide

/-- Claim C1 (amended): if `add_scancode` is invoked while the Waker Registry
contains zero wake-handles, no copy of the scancode reaches the Scancode
Queue; the shared state is left unchanged, nobody is woken and no diagnostic
is emitted — the byte is dropped entirely. -/
theorem add_scancode_empty_registry_no_push (sc : Nat) (s : KState)
    (h : s.waker_queue.items = []) :
    (add_scancode sc s).state = s ∧ (add_scancode sc s).woken = [] ∧
    (add_scancode sc s).drops = 0 := by
  obtain ⟨scq, wkq⟩ := s
  obtain ⟨cap, items⟩ := wkq
  simp only at h
  subst h
  simp [add_scancode, addScancodeLoop]

/-- Witness for the amended C1 at a concrete input. -/
theorem add_scancode_empty_registry_no_push_witness :
    (add_scancode 42 (KState.mk (ArrayQueue.mk 100 []) (ArrayQueue.mk 100 []))).state
        = KState.mk (ArrayQueue.mk 100 []) (ArrayQueue.mk 100 []) ∧
    (add_scancode 42 (KState.mk (ArrayQueue.mk 100 []) (ArrayQueue.mk 100 []))).woken = [] ∧
    (add_scancode 42 (KState.mk (ArrayQueue.mk 100 []) (ArrayQueue.mk 100 []))).drops = 0 :=
  add_scancode_empty_registry_no_push 42
    (KState.mk (ArrayQueue.mk 100 []) (ArrayQueue.mk 100 [])) rfl

/-- Claim C2: if the fast-path check of `poll_next` found the Scancode Queue
empty, then for every interference pattern of interrupt-handler calls between
the fast-path check and the registration (`mid1`) and between the
registration and the re-check (`mid2`) that leaves a byte at the front of the
Queue, the re-check consumes that byte and the poll returns `Ready`, never
`Pending`. -/
theorem poll_recheck_no_lost_wakeup (t : Nat) (mid1 mid2 : List Nat) (s : KState)
    (hfast : s.scancode_queue.items = []) (sc : Nat) (rest : List Nat)
    (hmid : (beforeRecheck t mid1 mid2 s).scancode_queue.items = sc :: rest) :
    (poll_next_interleaved t mid1 mid2 s).2 = PollResult.ready sc := by
  have h1 : pollFastCheck s = none := by
    simp [pollFastCheck, ArrayQueue.pop, hfast]
  simp only [poll_next_interleaved, h1]
  simp [pollRecheck, ArrayQueue.pop, hmid]

/-- Witness for C2: a byte delivered by the interrupt right after registration
is picked up by the re-check. -/
theorem poll_recheck_no_lost_wakeup_witness :
    (poll_next_interleaved 7 [] [42]
        (KState.mk (ArrayQueue.mk 100 []) (ArrayQueue.mk 100 []))).2
      = PollResult.ready 42 :=
  poll_recheck_no_lost_wakeup 7 [] [42]
    (KState.mk (ArrayQueue.mk 100 []) (ArrayQueue.mk 100 [])) rfl 42 [] rfl

/-- Claim C3 (counterexample): with the Scancode Queue full and one
wake-handle registered, `add_scancode` pops the handle but never invokes its
wake operation — the woken list is empty although a handle was present at the
start of the call. -/
theorem add_scancode_full_queue_skips_wake_cex :
    (KState.mk (ArrayQueue.mk 100 (List.replicate 100 0))
        (ArrayQueue.mk 100 [3])).waker_queue.items = [3] ∧
    (add_scancode 42 (KState.mk (ArrayQueue.mk 100 (List.replicate 100 0))
        (ArrayQueue.mk 100 [3]))).woken = [] := by
  decide

/-- Claim C3 (amended): every wake-handle present at the start of the call is
popped — the Registry is fully drained regardless of full-Queue push
failures — but a popped handle's wake operation is invoked only when the push
of its copy succeeded; on a full-Queue push failure the handle is discarded
without being woken and a diagnostic is counted instead. -/
theorem add_scancode_drains_all_wakes_on_success (sc : Nat) (s : KState) :
    (add_scancode sc s).state.waker_queue.items = [] ∧
    (add_scancode sc s).woken = s.waker_queue.items.take (freeSlots s) ∧
    (add_scancode sc s).drops = s.waker_queue.items.length - freeSlots s := by
  simp [add_scancode_spec]

/-- Claim C4: with `K` wake-handles registered and at least `K` free slots in
the Scancode Queue, `add_scancode` appends exactly `K` copies of the byte,
wakes all `K` handles in registration order, leaves the Registry empty and
drops nothing. -/
theorem add_scancode_fan_out (sc : Nat) (s : KState) (K : Nat)
    (hK : s.waker_queue.items.length = K)
    (hroom : s.scancode_queue.items.length + K ≤ s.scancode_queue.capacity) :
    (add_scancode sc s).state.scancode_queue.items
        = s.scancode_queue.items ++ List.replicate K sc ∧
    (add_scancode sc s).woken = s.waker_queue.items ∧
    (add_scancode sc s).state.waker_queue.items = [] ∧
    (add_scancode sc s).drops = 0 := by
  have hf : freeSlots s = K := by
    simp only [freeSlots]
    omega
  refine ⟨?_, ?_, ?_, ?_⟩
  · simp [add_scancode_spec, hf]
  · rw [add_scancode_spec]
    simp only [hf, ← hK]
    simp [List.take_length]
  · simp [add_scancode_spec]
  · rw [add_scancode_spec]
    simp only [hf]
    omega

/-- Witness for C4: two registered consumers, an empty Queue — both receive a
copy and both are woken. -/
theorem add_scancode_fan_out_witness :
    (add_scancode 9 (KState.mk (ArrayQueue.mk 100 [])
        (ArrayQueue.mk 100 [3, 5]))).state.scancode_queue.items = [9, 9] ∧
    (add_scancode 9 (KState.mk (ArrayQueue.mk 100 [])
        (ArrayQueue.mk 100 [3, 5]))).woken = [3, 5] ∧
    (add_scancode 9 (KState.mk (ArrayQueue.mk 100 [])
        (ArrayQueue.mk 100 [3, 5]))).state.waker_queue.items = [] ∧
    (add_scancode 9 (KState.mk (ArrayQueue.mk 100 [])
        (ArrayQueue.mk 100 [3, 5]))).drops = 0 :=
  add_scancode_fan_out 9 (KState.mk (ArrayQueue.mk 100 []) (ArrayQueue.mk 100 [3, 5])) 2
    rfl (by decide)

/-- Claim C5 (counterexample): with the Waker Registry full (100 handles of
other tasks) and the Scancode Queue empty, `poll_next` for task 7 returns
`Pending` although no wake-handle for task 7 is present in the Registry — the
registration push failed, so nothing will ever wake the task. -/
theorem poll_pending_unregistered_cex :
    (poll_next 7 (KState.mk (ArrayQueue.mk 100 [])
        (ArrayQueue.mk 100 (List.replicate 100 1)))).2 = PollResult.pending ∧
    7 ∉ (poll_next 7 (KState.mk (ArrayQueue.mk 100 [])
        (ArrayQueue.mk 100 (List.replicate 100 1)))).1.waker_queue.items := by
  decide

/-- Claim C5 (amended): whenever `poll_next` returns `Pending` and the Waker
Registry was not full at registration time, a wake-handle for the calling
task has been appended to the Registry (so the Producer Entry Point can later
pop it and wake the task). -/
theorem poll_pending_registered_when_not_full (t : Nat) (s : KState)
    (hcap : s.waker_queue.items.length < s.waker_queue.capacity)
    (hp : (poll_next t s).2 = PollResult.pending) :
    (poll_next t s).1.waker_queue.items = s.waker_queue.items ++ [t] := by
  rcases e : s.scancode_queue.items with _ | ⟨x, xs⟩
  · have h1 : pollFastCheck s = none := by
      simp [pollFastCheck, ArrayQueue.pop, e]
    simp only [poll_next, h1]
    simp [pollRegister, pollRecheck, ArrayQueue.push, ArrayQueue.pop, e, hcap]
  · exfalso
    have h1 : pollFastCheck s
        = some (x, { s with scancode_queue := { s.scancode_queue with items := xs } }) := by
      simp [pollFastCheck, ArrayQueue.pop, e]
    simp [poll_next, h1] at hp

/-- Witness for the amended C5 at a concrete input. -/
theorem poll_pending_registered_when_not_full_witness :
    (poll_next 7 (KState.mk (ArrayQueue.mk 100 [])
        (ArrayQueue.mk 100 []))).1.waker_queue.items = [] ++ [7] :=
  poll_pending_registered_when_not_full 7
    (KState.mk (ArrayQueue.mk 100 []) (ArrayQueue.mk 100 [])) (by decide) rfl

/-- Claim C7 (counterexample): a wake-handle can leave the Waker Registry in
a way not covered by the claim.  With the Scancode Queue full, `add_scancode`
pops handle 3 out of the Registry without ever invoking its wake operation
(so it is not "drained and invoked"), and a fast-path hit of `poll_next`
leaves the Registry untouched (so the fast path reclaims nothing). -/
theorem waker_consumed_without_invoke_cex :
    (add_scancode 42 (KState.mk (ArrayQueue.mk 100 (List.replicate 100 0))
        (ArrayQueue.mk 100 [3]))).state.waker_queue.items = [] ∧
    (add_scancode 42 (KState.mk (ArrayQueue.mk 100 (List.replicate 100 0))
        (ArrayQueue.mk 100 [3]))).woken = [] ∧
    (poll_next 9 (KState.mk (ArrayQueue.mk 100 [42])
        (ArrayQueue.mk 100 [3]))).1.waker_queue.items = [3] := by
  decide

/-- Claim C7 (amended): a wake-handle leaves the Waker Registry in exactly one
of two ways — the Producer Entry Point drains the whole Registry, invoking
the wake operation only of those handles whose Queue push succeeded, or the
re-check step of the very poll that pushed a handle pops one handle when the
re-check finds a byte.  The fast path never touches the Registry, the
registration step only appends (or fails leaving the Registry unchanged), and
a re-check that finds no byte leaves the state unchanged. -/
theorem waker_consumption_paths :
    (∀ sc s, (add_scancode sc s).state.waker_queue.items = [] ∧
        (add_scancode sc s).woken = s.waker_queue.items.take (freeSlots s)) ∧
    (∀ s sc s1, pollFastCheck s = some (sc, s1) → s1.waker_queue = s.waker_queue) ∧
    (∀ t s, (pollRegister t s).1.waker_queue.items = s.waker_queue.items ++ [t] ∨
        (pollRegister t s).1.waker_queue.items = s.waker_queue.items) ∧
    (∀ s, s.scancode_queue.items = [] → (pollRecheck s).1 = s) ∧
    (∀ s sc rest, s.scancode_queue.items = sc :: rest →
        (pollRecheck s).1.waker_queue.items = s.waker_queue.items.tail) := by
  refine ⟨?_, ?_, ?_, ?_, ?_⟩
  · intro sc s
    simp [add_scancode_spec]
  · intro s sc s1 h
    rcases e : s.scancode_queue.items with _ | ⟨x, xs⟩
    · simp [pollFastCheck, ArrayQueue.pop, e] at h
    · simp [pollFastCheck, ArrayQueue.pop, e] at h
      obtain ⟨h1, h2⟩ := h
      rw [← h2]
  · intro t s
    by_cases h : s.waker_queue.items.length < s.waker_queue.capacity
    · left
      simp [pollRegister, ArrayQueue.push, h]
    · right
      simp [pollRegister, ArrayQueue.push, h]
  · intro s h
    simp [pollRecheck, ArrayQueue.pop, h]
  · intro s sc rest h
    rcases e2 : s.waker_queue.items with _ | ⟨w, ws⟩ <;>
      simp [pollRecheck, ArrayQueue.pop, h, e2]

/-- Witness for the amended C7: the fast path preserves the Registry on a
concrete hit; an empty re-check changes nothing; a successful re-check pops
exactly one handle. -/
theorem waker_consumption_paths_witness :
    (KState.mk (ArrayQueue.mk 100 []) (ArrayQueue.mk 100 [7])).waker_queue
        = (KState.mk (ArrayQueue.mk 100 [42]) (ArrayQueue.mk 100 [7])).waker_queue ∧
    (pollRecheck (KState.mk (ArrayQueue.mk 100 []) (ArrayQueue.mk 100 [7]))).1
        = KState.mk (ArrayQueue.mk 100 []) (ArrayQueue.mk 100 [7]) ∧
    (pollRecheck (KState.mk (ArrayQueue.mk 100 [42]) (ArrayQueue.mk 100 [7]))).1.waker_queue.items
        = List.tail [7] :=
  ⟨waker_consumption_paths.2.1 (KState.mk (ArrayQueue.mk 100 [42]) (ArrayQueue.mk 100 [7])) 42
      (KState.mk (ArrayQueue.mk 100 []) (ArrayQueue.mk 100 [7])) rfl,
   waker_consumption_paths.2.2.2.1
      (KState.mk (ArrayQueue.mk 100 []) (ArrayQueue.mk 100 [7])) rfl,
   waker_consumption_paths.2.2.2.2
      (KState.mk (ArrayQueue.mk 100 [42]) (ArrayQueue.mk 100 [7])) 42 [] rfl⟩

/-- Pushing a list of items one after the other, counting the dropped ones
(models the "push C+1 items with no intervening pop" experiment). -/
def pushMany (q : ArrayQueue Nat) (xs : List Nat) : ArrayQueue Nat × Nat :=
  match xs with
  | [] => (q, 0)
  | x :: rest =>
      let p := q.push x
      let r := pushMany p.1 rest
      if p.2 then r else (r.1, r.2 + 1)

/-- Characterization of `pushMany`: the first `free-slots` items are appended,
everything beyond the capacity is dropped and counted. -/
theorem pushMany_spec (xs : List Nat) (q : ArrayQueue Nat) :
    pushMany q xs =
      ({ q with items := q.items ++ xs.take (min (q.capacity - q.items.length) xs.length) },
       xs.length - min (q.capacity - q.items.length) xs.length) := by
  induction xs generalizing q with
  | nil => simp [pushMany]
  | cons x rest ih =>
      by_cases h : q.items.length < q.capacity
      · have hmin : min (q.capacity - q.items.length) (rest.length + 1)
            = min (q.capacity - (q.items.length + 1)) rest.length + 1 := by omega
        simp only [pushMany, ArrayQueue.push, h, if_true, ih, List.length_cons, hmin]
        simp [List.take_succ_cons, List.append_assoc]
      · have hmin : min (q.capacity - q.items.length) (rest.length + 1) = 0 := by omega
        have hmin2 : min (q.capacity - q.items.length) rest.length = 0 := by omega
        simp only [pushMany, ArrayQueue.push, h, if_false, ih, List.length_cons, hmin, hmin2]
        simp

/-- An event on the shared channel state: an interrupt-handler invocation or a
poll by some task. -/
inductive KEvent where
  | produce (sc : Nat)
  | pollEv (t : Nat)

/-- One step of the system: run the corresponding operation on the state. -/
def kstep (s : KState) : KEvent → KState
  | KEvent.produce sc => (add_scancode sc s).state
  | KEvent.pollEv t => (poll_next t s).1

/-- Run a sequence of system events. -/
def runK (s : KState) (evs : List KEvent) : KState :=
  evs.foldl kstep s

/-- The shared state right after `ScancodeStream::new` first initializes both
queues with capacity 100 (lines 74–75). -/
def kInit : KState :=
  KState.mk (ArrayQueue.new 100) (ArrayQueue.new 100)

/-- Both queues have capacity 100 and never hold more than 100 items. -/
def KBounded (s : KState) : Prop :=
  s.scancode_queue.capacity = 100 ∧ s.scancode_queue.items.length ≤ 100 ∧
  s.waker_queue.capacity = 100 ∧ s.waker_queue.items.length ≤ 100

/-- `poll_next` preserves the capacities, never grows the scancode queue, and
grows the waker queue only within its capacity. -/
theorem poll_next_state (t : Nat) (s : KState) :
    (poll_next t s).1.scancode_queue.capacity = s.scancode_queue.capacity ∧
    (poll_next t s).1.waker_queue.capacity = s.waker_queue.capacity ∧
    (poll_next t s).1.scancode_queue.items.length ≤ s.scancode_queue.items.length ∧
    (poll_next t s).1.waker_queue.items.length
        ≤ max s.waker_queue.items.length s.waker_queue.capacity := by
  rcases e : s.scancode_queue.items with _ | ⟨x, xs⟩
  · have h1 : pollFastCheck s = none := by
      simp [pollFastCheck, ArrayQueue.pop, e]
    simp only [poll_next, h1]
    by_cases hw : s.waker_queue.items.length < s.waker_queue.capacity
    · simp [pollRegister, pollRecheck, ArrayQueue.push, ArrayQueue.pop, e, hw]
      omega
    · simp [pollRegister, pollRecheck, ArrayQueue.push, ArrayQueue.pop, e, hw]
  · have h1 : pollFastCheck s
        = some (x, { s with scancode_queue := { s.scancode_queue with items := xs } }) := by
      simp [pollFastCheck, ArrayQueue.pop, e]
    simp [poll_next, h1, e]

/-- Each system step preserves `KBounded`. -/
theorem kstep_bounded (s : KState) (e : KEvent) (h : KBounded s) : KBounded (kstep s e) := by
  unfold KBounded at h ⊢
  obtain ⟨h1, h2, h3, h4⟩ := h
  cases e with
  | produce sc =>
      simp only [kstep, add_scancode_spec]
      refine ⟨h1, ?_, h3, by simp⟩
      simp only [List.length_append, List.length_replicate, freeSlots]
      omega
  | pollEv t =>
      obtain ⟨c1, c2, c3, c4⟩ := poll_next_state t s
      simp only [kstep]
      exact ⟨by omega, by omega, by omega, by omega⟩

/-- Any sequence of system steps preserves `KBounded`. -/
theorem runK_bounded (evs : List KEvent) (s : KState) (h : KBounded s) :
    KBounded (runK s evs) := by
  induction evs generalizing s with
  | nil => simpa [runK]
  | cons e rest ih =>
      have h2 := kstep_bounded s e h
      simpa [runK, List.foldl_cons] using ih (kstep s e) h2

/-- Claim C6: in every state reachable from the freshly initialized channel
the Scancode Queue (and the Waker Registry) holds at most 100 items; a push
onto a full queue fails, returning the queue unchanged — the newest item is
the one dropped; and pushing 101 items into the fresh capacity-100 queue with
no intervening pop keeps exactly the first 100 and drops exactly one. -/
theorem scancode_queue_bounded_capacity :
    (∀ evs, (runK kInit evs).scancode_queue.items.length ≤ 100 ∧
        (runK kInit evs).waker_queue.items.length ≤ 100) ∧
    (∀ q : ArrayQueue Nat, ∀ x, q.items.length = q.capacity → q.push x = (q, false)) ∧
    (∀ xs : List Nat, xs.length = 101 →
        pushMany (ArrayQueue.new 100) xs = (ArrayQueue.mk 100 (xs.take 100), 1)) := by
  refine ⟨?_, ?_, ?_⟩
  · intro evs
    have hinit : KBounded kInit := by
      unfold KBounded
      refine ⟨rfl, by simp [kInit, ArrayQueue.new], rfl, by simp [kInit, ArrayQueue.new]⟩
    have h := runK_bounded evs kInit hinit
    unfold KBounded at h
    exact ⟨h.2.1, h.2.2.2⟩
  · intro q x h
    simp [ArrayQueue.push, h]
  · intro xs h
    rw [pushMany_spec]
    have hm : min ((ArrayQueue.new 100 : ArrayQueue Nat).capacity
        - (ArrayQueue.new 100 : ArrayQueue Nat).items.length) xs.length = 100 := by
      simp only [ArrayQueue.new, List.length_nil]
      omega
    rw [hm]
    simp [ArrayQueue.new, h]

/-- Witness for C6: a full queue rejects a push unchanged, and 101 pushes into
a fresh queue keep 100 items and drop exactly one. -/
theorem scancode_queue_bounded_capacity_witness :
    ArrayQueue.push (ArrayQueue.mk 100 (List.replicate 100 2)) 5
        = (ArrayQueue.mk 100 (List.replicate 100 2), false) ∧
    pushMany (ArrayQueue.new 100) (List.replicate 101 7)
        = (ArrayQueue.mk 100 ((List.replicate 101 7).take 100), 1) :=
  ⟨scancode_queue_bounded_capacity.2.1 (ArrayQueue.mk 100 (List.replicate 100 2)) 5
      (by decide),
   scancode_queue_bounded_capacity.2.2 (List.replicate 101 7) (by decide)⟩

/-- The two `OnceCell` statics (lines 20 and 23): `none` models an
uninitialized cell, `some q` an initialized one. -/
structure GlobalState where
  SCANCODE_QUEUE : Option (ArrayQueue Nat)
  WAKER_QUEUE : Option (ArrayQueue Nat)
deriving DecidableEq

/-- `OnceCell::init_once`: run the closure only if the cell is still empty;
an already-initialized cell is left untouched. -/
def OnceCell.init_once (cell : Option (ArrayQueue Nat)) (mk : Unit → ArrayQueue Nat) :
    Option (ArrayQueue Nat) :=
  match cell with
  | some q => some q
  | none => some (mk ())

/-- The `ScancodeStream` value itself carries no data (line 64). -/
structure ScancodeStream where
  priv : Unit
deriving DecidableEq

/-- `ScancodeStream::new` (lines 72–78): initialize both cells with fresh
capacity-100 queues if they are still empty, then hand out a stream value.
All streams share the same two global cells. -/
def ScancodeStream.new (g : GlobalState) : ScancodeStream × GlobalState :=
  (ScancodeStream.mk (),
   { SCANCODE_QUEUE := OnceCell.init_once g.SCANCODE_QUEUE (fun _ => ArrayQueue.new 100),
     WAKER_QUEUE := OnceCell.init_once g.WAKER_QUEUE (fun _ => ArrayQueue.new 100) })

/-- `add_scancode` including its initialization guards (lines 32–38): `none`
models the `expect` panic when either cell is uninitialized. -/
def add_scancode_global (sc : Nat) (g : GlobalState) :
    Option (GlobalState × List Nat × Nat) :=
  match g.SCANCODE_QUEUE, g.WAKER_QUEUE with
  | some scq, some wkq =>
      let r := add_scancode sc (KState.mk scq wkq)
      some ({ SCANCODE_QUEUE := some r.state.scancode_queue,
              WAKER_QUEUE := some r.state.waker_queue },
            r.woken, r.drops)
  | _, _ => none

/-- `poll_next` including its initialization guards (lines 87–93): `none`
models the `expect` panic when either cell is uninitialized. -/
def poll_next_global (t : Nat) (g : GlobalState) :
    Option (GlobalState × PollResult) :=
  match g.SCANCODE_QUEUE, g.WAKER_QUEUE with
  | some scq, some wkq =>
      let r := poll_next t (KState.mk scq wkq)
      some ({ SCANCODE_QUEUE := some r.1.scancode_queue,
              WAKER_QUEUE := some r.1.waker_queue },
            r.2)
  | _, _ => none

/-- Both cells are initialized. -/
def GlobalState.isInit (g : GlobalState) : Bool :=
  g.SCANCODE_QUEUE.isSome && g.WAKER_QUEUE.isSome

/-- An event against the global channel state. -/
inductive GEvent where
  | produce (sc : Nat)
  | pollEv (t : Nat)

/-- One step against the global state; `none` models a panic. -/
def gstep (g : GlobalState) : GEvent → Option GlobalState
  | GEvent.produce sc => (add_scancode_global sc g).map (fun r => r.1)
  | GEvent.pollEv t => (poll_next_global t g).map (fun r => r.1)

/-- Run a sequence of global events, stopping at the first panic. -/
def runGEvents (g : GlobalState) : List GEvent → Option GlobalState
  | [] => some g
  | e :: rest =>
      match gstep g e with
      | none => none
      | some g1 => runGEvents g1 rest

/-- An initialized state steps to an initialized state, never panicking. -/
theorem gstep_init (g : GlobalState) (e : GEvent) (h : g.isInit = true) :
    ∃ g1, gstep g e = some g1 ∧ g1.isInit = true := by
  obtain ⟨c1, c2⟩ := g
  cases c1 with
  | none => simp [GlobalState.isInit] at h
  | some scq =>
      cases c2 with
      | none => simp [GlobalState.isInit] at h
      | some wkq =>
          cases e with
          | produce sc =>
              exact ⟨_, rfl, rfl⟩
          | pollEv t =>
              exact ⟨_, rfl, rfl⟩

/-- From an initialized state, no sequence of produce/poll events panics. -/
theorem runGEvents_init (evs : List GEvent) (g : GlobalState) (h : g.isInit = true) :
    ∃ g1, runGEvents g evs = some g1 := by
  induction evs generalizing g with
  | nil => exact ⟨g, rfl⟩
  | cons e rest ih =>
      obtain ⟨g1, hg1, hinit⟩ := gstep_init g e h
      obtain ⟨g2, hg2⟩ := ih g1 hinit
      exact ⟨g2, by simp [runGEvents, hg1, hg2]⟩

/-- Claim C8: calling `add_scancode` or `poll_next` with either cell still
uninitialized panics at the `expect` (modelled by `none`) without touching any
state, and after `ScancodeStream::new` has run once both cells are
initialized, so no subsequent sequence of `add_scancode`/`poll_next` calls
can ever hit that panic. -/
theorem init_order_violation_fatal :
    (∀ g sc t, g.isInit = false →
        add_scancode_global sc g = none ∧ poll_next_global t g = none) ∧
    (∀ g, (ScancodeStream.new g).2.isInit = true) ∧
    (∀ g evs, ∃ g1, runGEvents (ScancodeStream.new g).2 evs = some g1) := by
  refine ⟨?_, ?_, ?_⟩
  · intro g sc t h
    obtain ⟨c1, c2⟩ := g
    cases c1 with
    | none => exact ⟨rfl, rfl⟩
    | some scq =>
        cases c2 with
        | none => exact ⟨rfl, rfl⟩
        | some wkq => simp [GlobalState.isInit] at h
  · intro g
    obtain ⟨c1, c2⟩ := g
    cases c1 <;> cases c2 <;> rfl
  · intro g evs
    refine runGEvents_init evs (ScancodeStream.new g).2 ?_
    obtain ⟨c1, c2⟩ := g
    cases c1 <;> cases c2 <;> rfl

/-- Witness for C8: the uninitialized state panics on both entry points, and
after `new` a produce followed by a poll runs without panicking. -/
theorem init_order_violation_fatal_witness :
    (add_scancode_global 42 (GlobalState.mk none none) = none ∧
        poll_next_global 7 (GlobalState.mk none none) = none) ∧
    (ScancodeStream.new (GlobalState.mk none none)).2.isInit = true ∧
    (∃ g1, runGEvents (ScancodeStream.new (GlobalState.mk none none)).2
        [GEvent.produce 42, GEvent.pollEv 7] = some g1) :=
  ⟨init_order_violation_fatal.1 (GlobalState.mk none none) 42 7 rfl,
   init_order_violation_fatal.2.1 (GlobalState.mk none none),
   init_order_violation_fatal.2.2 (GlobalState.mk none none)
     [GEvent.produce 42, GEvent.pollEv 7]⟩

/-- Claim C10: `ScancodeStream::new` always succeeds and initializes the two
shared queues exactly once — from the uninitialized state it creates both
with capacity 100 and no contents, any call on an already-initialized state
leaves both cells (queues and contents) unchanged, and `new` is idempotent on
the shared state. -/
theorem scancode_stream_new_idempotent :
    (ScancodeStream.new (GlobalState.mk none none)).2
        = GlobalState.mk (some (ArrayQueue.new 100)) (some (ArrayQueue.new 100)) ∧
    (∀ g q1 q2, g.SCANCODE_QUEUE = some q1 → g.WAKER_QUEUE = some q2 →
        (ScancodeStream.new g).2 = g) ∧
    (∀ g, (ScancodeStream.new (ScancodeStream.new g).2).2 = (ScancodeStream.new g).2) := by
  refine ⟨rfl, ?_, ?_⟩
  · intro g q1 q2 h1 h2
    obtain ⟨c1, c2⟩ := g
    simp only at h1 h2
    subst h1
    subst h2
    rfl
  · intro g
    obtain ⟨c1, c2⟩ := g
    cases c1 <;> cases c2 <;> rfl

/-- Witness for C10: a second `new` on the freshly initialized state changes
nothing. -/
theorem scancode_stream_new_idempotent_witness :
    (ScancodeStream.new (GlobalState.mk (some (ArrayQueue.new 100))
        (some (ArrayQueue.new 100)))).2
      = GlobalState.mk (some (ArrayQueue.new 100)) (some (ArrayQueue.new 100)) :=
  scancode_stream_new_idempotent.2.1
    (GlobalState.mk (some (ArrayQueue.new 100)) (some (ArrayQueue.new 100)))
    (ArrayQueue.new 100) (ArrayQueue.new 100) rfl rfl

/-- With no registered waker the drain loop never runs: the call is a no-op. -/
theorem add_scancode_no_waiters (sc : Nat) (s : KState)
    (h : s.waker_queue.items = []) :
    add_scancode sc s = ProduceResult.mk s [] 0 := by
  obtain ⟨scq, wkq⟩ := s
  obtain ⟨cap, items⟩ := wkq
  simp only at h
  subst h
  simp [add_scancode, addScancodeLoop]

/-- With exactly one registered waker and a free slot, the byte is appended
once, the waker is woken and the registry is emptied. -/
theorem add_scancode_one_waiter (sc : Nat) (s : KState) (w : Nat)
    (hw : s.waker_queue.items = [w])
    (hroom : s.scancode_queue.items.length < s.scancode_queue.capacity) :
    add_scancode sc s =
      ProduceResult.mk
        (KState.mk { s.scancode_queue with items := s.scancode_queue.items ++ [sc] }
          { s.waker_queue with items := [] })
        [w] 0 := by
  have hf : freeSlots s = 1 := by
    simp only [freeSlots, hw, List.length_cons, List.length_nil]
    omega
  rw [add_scancode_spec]
  simp [hf, hw]

/-- `poll_next` on an empty scancode queue with a non-full waker queue:
register the caller and return `Pending`. -/
theorem poll_next_empty_queue (t : Nat) (s : KState)
    (he : s.scancode_queue.items = [])
    (hcap : s.waker_queue.items.length < s.waker_queue.capacity) :
    poll_next t s =
      ({ s with waker_queue := { s.waker_queue with items := s.waker_queue.items ++ [t] } },
       PollResult.pending) := by
  have h1 : pollFastCheck s = none := by
    simp [pollFastCheck, ArrayQueue.pop, he]
  simp only [poll_next, h1]
  simp [pollRegister, pollRecheck, ArrayQueue.push, ArrayQueue.pop, he, hcap]

/-- `poll_next` on a non-empty scancode queue: the fast path pops the front
byte and returns `Ready` without touching the waker queue. -/
theorem poll_next_fast (t : Nat) (s : KState) (x : Nat) (xs : List Nat)
    (he : s.scancode_queue.items = x :: xs) :
    poll_next t s =
      ({ s with scancode_queue := { s.scancode_queue with items := xs } },
       PollResult.ready x) := by
  have h1 : pollFastCheck s
      = some (x, { s with scancode_queue := { s.scancode_queue with items := xs } }) := by
    simp [pollFastCheck, ArrayQueue.pop, he]
  simp [poll_next, h1]

/-- The single-consumer system: the shared state, whether the consumer is
suspended awaiting a wake, and the history of produced and delivered bytes.
The consumer task is task 0. -/
structure ConsumerSys where
  kstate : KState
  waiting : Bool
  produced : List Nat
  delivered : List Nat
deriving DecidableEq

/-- An event of the single-consumer system: the interrupt delivers a byte, or
the executor polls the consumer. -/
inductive CEvent where
  | produce (sc : Nat)
  | pollEv

/-- One step of the single-consumer system.  A produce runs `add_scancode`;
the consumer becomes runnable when its waker was invoked (all wakers in this
system belong to task 0, so a non-empty woken list means task 0 was woken).
A poll runs `poll_next` — the executor contract of §5 forbids re-polling a
suspended task before its waker fires, so a poll while `waiting` is a no-op.
`Ready` appends the byte to the delivered history; `Pending` suspends. -/
def cstep (s : ConsumerSys) : CEvent → ConsumerSys
  | CEvent.produce sc =>
      let r := add_scancode sc s.kstate
      { kstate := r.state,
        waiting := if r.woken.isEmpty then s.waiting else false,
        produced := s.produced ++ [sc],
        delivered := s.delivered }
  | CEvent.pollEv =>
      if s.waiting then s
      else
        match poll_next 0 s.kstate with
        | (s1, PollResult.ready sc) =>
            { kstate := s1, waiting := false,
              produced := s.produced, delivered := s.delivered ++ [sc] }
        | (s1, PollResult.pending) =>
            { kstate := s1, waiting := true,
              produced := s.produced, delivered := s.delivered }

/-- Run a sequence of single-consumer events. -/
def runCEvents (s : ConsumerSys) (evs : List CEvent) : ConsumerSys :=
  evs.foldl cstep s

/-- The single-consumer system at start: fresh queues, consumer runnable,
empty histories. -/
def consumerInit : ConsumerSys :=
  ConsumerSys.mk kInit false [] []

/-- Invariant of the single-consumer system: capacities are 100; the registry
holds the consumer's handle exactly while it is suspended (and then the
scancode queue is empty); the delivered history followed by the queued bytes
is a subsequence of the produced history. -/
def CInv (s : ConsumerSys) : Prop :=
  s.kstate.scancode_queue.capacity = 100 ∧
  s.kstate.waker_queue.capacity = 100 ∧
  (s.waiting = false → s.kstate.waker_queue.items = []) ∧
  (s.waiting = true → s.kstate.waker_queue.items = [0] ∧
      s.kstate.scancode_queue.items = []) ∧
  List.Sublist (s.delivered ++ s.kstate.scancode_queue.items) s.produced

/-- Each single-consumer step preserves `CInv`. -/
theorem cstep_inv (s : ConsumerSys) (e : CEvent) (h : CInv s) : CInv (cstep s e) := by
  obtain ⟨hc1, hc2, hnw, hw, hsub⟩ := h
  cases e with
  | produce sc =>
      cases hwait : s.waiting with
      | false =>
          have hi : s.kstate.waker_queue.items = [] := hnw hwait
          have ha := add_scancode_no_waiters sc s.kstate hi
          have hstep : cstep s (CEvent.produce sc)
              = ConsumerSys.mk s.kstate false (s.produced ++ [sc]) s.delivered := by
            simp [cstep, ha, hwait]
          rw [hstep]
          unfold CInv
          refine ⟨hc1, hc2, fun _ => hi, ?_, ?_⟩
          · intro hx
            exact nomatch hx
          · exact hsub.trans (List.sublist_append_left _ _)
      | true =>
          obtain ⟨hi, hq⟩ := hw hwait
          have ha := add_scancode_one_waiter sc s.kstate 0 hi (by rw [hq, hc1]; decide)
          have hstep : cstep s (CEvent.produce sc)
              = ConsumerSys.mk
                  (KState.mk
                    { s.kstate.scancode_queue with
                        items := s.kstate.scancode_queue.items ++ [sc] }
                    { s.kstate.waker_queue with items := [] })
                  false (s.produced ++ [sc]) s.delivered := by
            simp [cstep, ha]
          rw [hstep]
          unfold CInv
          refine ⟨hc1, hc2, fun _ => rfl, ?_, ?_⟩
          · intro hx
            exact nomatch hx
          · have hd : List.Sublist s.delivered s.produced := by
              simpa [hq] using hsub
            rw [hq]
            simpa using hd.append (List.Sublist.refl [sc])
  | pollEv =>
      cases hwait : s.waiting with
      | true =>
          have hstep : cstep s CEvent.pollEv = s := by
            simp [cstep, hwait]
          rw [hstep]
          exact ⟨hc1, hc2, hnw, hw, hsub⟩
      | false =>
          have hi : s.kstate.waker_queue.items = [] := hnw hwait
          rcases e2 : s.kstate.scancode_queue.items with _ | ⟨x, xs⟩
          · have ha := poll_next_empty_queue 0 s.kstate e2 (by rw [hi, hc2]; decide)
            have hstep : cstep s CEvent.pollEv
                = ConsumerSys.mk
                    (KState.mk s.kstate.scancode_queue
                      { s.kstate.waker_queue with
                          items := s.kstate.waker_queue.items ++ [0] })
                    true s.produced s.delivered := by
              simp [cstep, hwait, ha]
            rw [hstep]
            unfold CInv
            refine ⟨hc1, hc2, ?_, ?_, hsub⟩
            · intro hx
              exact nomatch hx
            · intro hx
              refine ⟨?_, e2⟩
              simp [hi]
          · have ha := poll_next_fast 0 s.kstate x xs e2
            have hstep : cstep s CEvent.pollEv
                = ConsumerSys.mk
                    (KState.mk { s.kstate.scancode_queue with items := xs }
                      s.kstate.waker_queue)
                    false s.produced (s.delivered ++ [x]) := by
              simp [cstep, hwait, ha]
            rw [hstep]
            unfold CInv
            refine ⟨hc1, hc2, fun _ => hi, ?_, ?_⟩
            · intro hx
              exact nomatch hx
            · have h5 := hsub
              rw [e2] at h5
              simpa [List.append_assoc] using h5

/-- Any sequence of single-consumer steps preserves `CInv`. -/
theorem runCEvents_inv (evs : List CEvent) (s : ConsumerSys) (h : CInv s) :
    CInv (runCEvents s evs) := by
  induction evs generalizing s with
  | nil => simpa [runCEvents]
  | cons e rest ih =>
      have h2 := cstep_inv s e h
      simpa [runCEvents, List.foldl_cons] using ih (cstep s e) h2

/-- Claim C9: with exactly one consumer, under the executor contract that a
suspended task is not re-polled before its waker fires, the sequence of bytes
the stream returns `Ready` is a subsequence of the produced sequence —
delivery preserves production order, with only best-effort drops. -/
theorem fifo_single_consumer (evs : List CEvent) :
    List.Sublist (runCEvents consumerInit evs).delivered
      (runCEvents consumerInit evs).produced := by
  have hinit : CInv consumerInit := by
    unfold CInv
    refine ⟨rfl, rfl, fun _ => rfl, ?_, ?_⟩
    · intro hx
      exact nomatch hx
    · simp [consumerInit, kInit, ArrayQueue.new]
  have h := runCEvents_inv evs consumerInit hinit
  unfold CInv at h
  exact (List.sublist_append_left _ _).trans h.2.2.2.2
